import Mathlib

/-!
# Verification of the identity-sync-operator decision core

Shallow embedding of the decision core of `lapacek-labs/identity-sync-operator`:
error classification (`pkg/errclass`), fanout observation and outcome policy
(`internal/controller/fanout_observation.go`), status conditions
(`pkg/status/conditions.go`), the status-patch gate
(`internal/controller/controller.go`), and the log rate limiter
(`pkg/logging`).

Modelling conventions:
* Go string-typed enums (`ErrorKind`, `ErrorReason`, `result.Outcome`,
  `result.Reason`, `metav1.ConditionStatus`) are Lean `String`s holding the
  same literal values.
* Go `int`/`int64`/`time.Duration`/`time.Time` are `Int` (no arithmetic in the
  embedded code can overflow at reachable magnitudes; comparisons are exact).
* Go maps (`map[string]T`) are association lists with first-match lookup and
  in-place update; all reachable maps have pairwise-distinct keys, so the
  association list is an exact model.
* `sort.Slice` with a comparator that is a strict total order on the sort keys
  produces the unique sorted permutation; it is modelled by
  `List.insertionSort` over the reflexive closure of the comparator.
* Go errors passed to `ClassifyError` are modelled by a record of the
  classification predicates (`errors.Is`/`apierrors.IsX`/`errors.As`) that the
  function consults, plus the `Error()` message.
-/

namespace IdentitySync

/-! ## pkg/errclass/error.go -/

/-- `errclass.ErrorKind` constant `KindTransient`. -/
def KindTransient : String := "Transient"

/-- `errclass.ErrorKind` constant `KindTerminal`. -/
def KindTerminal : String := "Terminal"

/-- `errclass.ErrorKind` constant `KindConflict`. -/
def KindConflict : String := "Conflict"

/-- `errclass.ErrorKind` constant `KindConfig`. -/
def KindConfig : String := "Config"

/-- `errclass.NotFoundPolicy` is a Go `int`; `NotFoundAsConfig = iota = 0`. -/
def NotFoundAsConfig : Int := 0

/-- `errclass.NotFoundPolicy NotFoundAsTransient = 1`. -/
def NotFoundAsTransient : Int := 1

/-- `errclass.ErrorReason` constants. -/
def ReasonForbiddenE : String := "Forbidden"

def ReasonConflictE : String := "Conflict"

def ReasonNotFoundE : String := "NotFound"

def ReasonTimeoutE : String := "Timeout"

def ReasonInvalidE : String := "Invalid"

def ReasonOtherE : String := "Other"

/-- A Go `error` value as seen by `ClassifyError`: the outcome of each
predicate the classifier consults, the `errors.As`-extracted HTTP status code
(`none` when `errors.As` fails), and the `Error()` message (used by
`Observation.ObserveFailure` for samples). -/
structure KErr where
  isDeadlineExceeded : Bool := false
  isCanceled : Bool := false
  isConflict : Bool := false
  isAlreadyExists : Bool := false
  isForbidden : Bool := false
  isUnauthorized : Bool := false
  isInvalid : Bool := false
  isNotFound : Bool := false
  isTimeout : Bool := false
  isServerTimeout : Bool := false
  isTooManyRequests : Bool := false
  isInternalError : Bool := false
  statusCode : Option Int := none
  message : String := ""
deriving DecidableEq

/-! ## pkg/errclass/classify.go -/

/-- `errclass.ClassifyError(err, notFoundPolicy) (ErrorKind, ErrorReason)`.
A `nil` error is `none`; Go's zero-value returns are the empty strings. -/
def ClassifyError (err : Option KErr) (notFoundPolicy : Int) : String × String :=
  match err with
  | none => ("", "")
  | some e =>
    if e.isDeadlineExceeded then (KindTransient, ReasonTimeoutE)
    else if e.isCanceled then (KindTerminal, ReasonOtherE)
    else if e.isConflict then (KindConflict, ReasonConflictE)
    else if e.isAlreadyExists then (KindConflict, ReasonConflictE)
    else if e.isForbidden || e.isUnauthorized then (KindConfig, ReasonForbiddenE)
    else if e.isInvalid then (KindConfig, ReasonInvalidE)
    else if e.isNotFound then
      (if notFoundPolicy = NotFoundAsTransient then (KindTransient, ReasonNotFoundE)
       else (KindConfig, ReasonNotFoundE))
    else if e.isTimeout || e.isServerTimeout || e.isTooManyRequests then
      (KindTransient, ReasonTimeoutE)
    else if e.isInternalError then (KindTransient, ReasonOtherE)
    else
      -- fallback: `errors.As` into `*apierrors.StatusError`, bucket by code;
      -- both the 0-or-5xx branch and the final return yield (Transient, Other)
      match e.statusCode with
      | some code =>
        if code = 0 ∨ (500 ≤ code ∧ code ≤ 599) then (KindTransient, ReasonOtherE)
        else (KindTransient, ReasonOtherE)
      | none => (KindTransient, ReasonOtherE)

/-! ## pkg/result -/

/-- `result.Outcome` constants. -/
def OutcomeSuccess : String := "success"

def OutcomePartial : String := "partial"

def OutcomeFailed : String := "failed"

/-- `result.Reason` constants. -/
def ReasonAPIServerError : String := "APIServerError"

def ReasonPartialFailure : String := "PartialFailure"

def ReasonInvalidSpec : String := "InvalidSpec"

def ReasonForbiddenR : String := "Forbidden"

def ReasonConflictR : String := "Conflict"

def ReasonNotFoundR : String := "NotFound"

def ReasonTimeoutR : String := "Timeout"

def ReasonUnknown : String := "Unknown"

/-- `result.Decision` (`pkg/result/decision.go`). The Go zero value of
`RequeueAfter` is 0 and of `Err` is nil. -/
structure Decision where
  RequeueAfter : Int := 0
  Outcome : String := ""
  Reason : String := ""
  Msg : String := ""
  Err : Option KErr := none
deriving DecidableEq

/-! ## Association-list model of Go maps -/

/-- First-match lookup in an association list (Go map read). -/
def lookupAssoc {α : Type} : List (String × α) → String → Option α
  | [], _ => none
  | p :: m, k => if p.1 = k then some p.2 else lookupAssoc m k

/-- In-place update / insert (Go `m[k] = v`). On key-distinct lists this is
exactly the Go map write. -/
def setAssoc {α : Type} : List (String × α) → String → α → List (String × α)
  | [], k, v => [(k, v)]
  | p :: m, k, v => if p.1 = k then (k, v) :: m else p :: setAssoc m k v

/-- Increment a counter entry (Go `m[k]++`, missing key reads 0). -/
def incrCount : List (String × Int) → String → List (String × Int)
  | [], k => [(k, 1)]
  | p :: m, k => if p.1 = k then (p.1, p.2 + 1) :: m else p :: incrCount m k

/-- Counter read (`m[k]` with Go's zero default). -/
def countAssoc (m : List (String × Int)) (k : String) : Int :=
  (lookupAssoc m k).getD 0

/-! ## internal/controller/fanout_observation.go -/

/-- `controller.Sample`. -/
structure Sample where
  Namespace : String
  Message : String
  Reason : String
  Kind : String
deriving DecidableEq

/-- `controller.Observation`. `Reasons` is `map[ErrorReason]int`. -/
structure Observation where
  Reasons : List (String × Int) := []
  Samples : List Sample := []
  MaxSample : Int := 0
  Success : Int := 0
  Failed : Int := 0
  Total : Int := 0
  HasTransient : Bool := false
  HasPermanent : Bool := false
deriving DecidableEq

/-- `controller.NewObservation(total, maxSample)`. -/
def NewObservation (total maxSample : Int) : Observation :=
  { MaxSample := maxSample, Samples := [], Total := total }

/-- `Observation.ObserveSuccess`. -/
def Observation.ObserveSuccess (obs : Observation) : Observation :=
  { obs with Success := obs.Success + 1 }

/-- `err.Error()` for an optional error (ObserveFailure leaves the message
empty for a nil error). -/
def errMessage : Option KErr → String
  | none => ""
  | some e => e.message

/-- `Observation.ObserveFailure(namespace, kind, reason, err)`. -/
def Observation.ObserveFailure (obs : Observation) (ns kind reason : String)
    (err : Option KErr) : Observation :=
  let obs1 : Observation :=
    { obs with
      Failed := obs.Failed + 1
      HasTransient := obs.HasTransient || (kind = KindTransient ∨ kind = KindConflict)
      HasPermanent := obs.HasPermanent || (kind = KindTerminal ∨ kind = KindConfig)
      Reasons := incrCount obs.Reasons reason }
  if (obs1.Samples.length : Int) < obs1.MaxSample then
    { obs1 with
      Samples := obs1.Samples ++
        [{ Namespace := ns, Message := errMessage err, Reason := reason, Kind := kind }] }
  else obs1

/-- `controller.ReasonCount`. -/
structure ReasonCount where
  Reason : String
  Count : Int
deriving DecidableEq

/-- `Observation.ErrorReasonCounts`: zero-count entries are skipped. -/
def Observation.ErrorReasonCounts (obs : Observation) : List ReasonCount :=
  obs.Reasons.filterMap fun p => if p.2 = 0 then none else some ⟨p.1, p.2⟩

/-- `controller.errReasonPriority`. -/
def errReasonPriority (r : String) : Int :=
  if r = ReasonInvalidE then 60
  else if r = ReasonForbiddenE then 50
  else if r = ReasonNotFoundE then 40
  else if r = ReasonConflictE then 30
  else if r = ReasonTimeoutE then 20
  else if r = ReasonOtherE then 10
  else 0

/-- The comparator passed to `sort.Slice` in `ReasonCounts.SortInPlace`:
entry `a` sorts strictly before `b`. -/
def reasonLess (a b : ReasonCount) : Bool :=
  if a.Count ≠ b.Count then decide (b.Count < a.Count)
  else if errReasonPriority a.Reason ≠ errReasonPriority b.Reason then
    decide (errReasonPriority b.Reason < errReasonPriority a.Reason)
  else decide (a.Reason < b.Reason)

/-- The reflexive closure of the `SortInPlace` comparator: `a` may appear at or
before `b` in the sorted output — count descending, then priority descending,
then reason name ascending. -/
def keyLe (a b : ReasonCount) : Prop :=
  b.Count < a.Count ∨
    (a.Count = b.Count ∧
      (errReasonPriority b.Reason < errReasonPriority a.Reason ∨
        (errReasonPriority a.Reason = errReasonPriority b.Reason ∧ a.Reason ≤ b.Reason)))

instance : DecidableRel keyLe := fun a b => by unfold keyLe; infer_instance

/-- `ReasonCounts.SortInPlace`: `sort.Slice` with `reasonLess`, i.e. the sorted
permutation with respect to `keyLe`. -/
def SortInPlace (rc : List ReasonCount) : List ReasonCount :=
  List.insertionSort keyLe rc

/-- `controller.mapErrReasonToResultReason`. -/
def mapErrReasonToResultReason (reason : String) : String :=
  if reason = ReasonNotFoundE then ReasonNotFoundR
  else if reason = ReasonForbiddenE then ReasonForbiddenR
  else if reason = ReasonInvalidE then ReasonInvalidSpec
  else if reason = ReasonConflictE then ReasonConflictR
  else if reason = ReasonTimeoutE then ReasonTimeoutR
  else if reason = ReasonOtherE then ReasonAPIServerError
  else ReasonUnknown

/-- `Observation.PrimaryReason`. -/
def Observation.PrimaryReason (obs : Observation) : String :=
  if obs.Reasons.length = 0 then ReasonUnknown
  else
    let reasons := obs.ErrorReasonCounts
    if reasons.length = 0 then ReasonUnknown
    else mapErrReasonToResultReason ((SortInPlace reasons).headD ⟨"", 0⟩).Reason

/-- `controller.Policy`. -/
structure Policy where
  TransientDelay : Int
  PermanentDelay : Int
deriving DecidableEq

/-- `controller.DefaultPolicy` (2 min / 10 min in nanoseconds). -/
def DefaultPolicy : Policy :=
  { TransientDelay := 2 * 60 * 1000000000, PermanentDelay := 10 * 60 * 1000000000 }

/-- `Policy.Decide(obs)`. -/
def Policy.Decide (p : Policy) (obs : Observation) : Decision :=
  let outcome :=
    if obs.Total = 0 then OutcomeSuccess
    else if obs.Success = obs.Total then OutcomeSuccess
    else if obs.Success = 0 then OutcomeFailed
    else OutcomePartial
  let dec : Decision := { Outcome := outcome, Reason := obs.PrimaryReason, Msg := "" }
  if outcome ≠ OutcomeSuccess then
    if obs.HasTransient then { dec with RequeueAfter := p.TransientDelay }
    else { dec with RequeueAfter := p.PermanentDelay }
  else dec

/-! ## pkg/status/conditions.go -/

/-- `metav1.ConditionTrue`. -/
def ConditionTrue : String := "True"

/-- `metav1.Condition` (the fields the repository uses). `Type` is a Lean
keyword, hence `Type_`; `LastTransitionTime` is an instant (`Int`). -/
structure Condition where
  Type_ : String
  Status : String
  Reason : String
  Message : String
  ObservedGeneration : Int
  LastTransitionTime : Int
deriving DecidableEq

/-- `status.ConditionSet`. `conditions` is the live `map[string]Condition`. -/
structure ConditionSet where
  original : List Condition
  conditions : List (String × Condition)
  reconcileTime : Int
  observedGeneration : Int
deriving DecidableEq

/-- `status.NewConditionSet`: snapshot the input list and index it by Type
(`byType[c.Type] = c`, later duplicates overwrite). -/
def NewConditionSet (conds : List Condition) (generation reconcileTime : Int) :
    ConditionSet :=
  { original := conds
    conditions := conds.foldl (fun m c => setAssoc m c.Type_ c) []
    reconcileTime := reconcileTime
    observedGeneration := generation }

/-- `ConditionSet.isSame`: equality on {Status, Reason, Message,
ObservedGeneration} — LastTransitionTime is excluded. -/
def isSame (prev next : Condition) : Bool :=
  decide (prev.Status = next.Status ∧ prev.Reason = next.Reason ∧
    prev.Message = next.Message ∧ prev.ObservedGeneration = next.ObservedGeneration)

/-- `ConditionSet.Set(condType, status, reason, message)`. -/
def ConditionSet.Set (cs : ConditionSet) (condType status reason message : String) :
    ConditionSet :=
  let next : Condition :=
    { Type_ := condType, Reason := reason, Status := status, Message := message
      ObservedGeneration := cs.observedGeneration
      LastTransitionTime := cs.reconcileTime }
  match lookupAssoc cs.conditions condType with
  | some prev =>
    let next := if prev.Status = next.Status then
        { next with LastTransitionTime := prev.LastTransitionTime }
      else next
    if isSame prev next then cs
    else { cs with conditions := setAssoc cs.conditions condType next }
  | none => { cs with conditions := setAssoc cs.conditions condType next }

/-- `ConditionSet.IsConditionTrue(condType)`. -/
def ConditionSet.IsConditionTrue (cs : ConditionSet) (condType : String) : Bool :=
  match lookupAssoc cs.conditions condType with
  | some c => c.Status = ConditionTrue
  | none => false

/-- The comparator of `sort.Slice` in `ConditionSet.Conditions` (ascending
Type), in reflexive closure. -/
def condLe (a b : Condition) : Prop := a.Type_ ≤ b.Type_

instance : DecidableRel condLe := fun a b => by unfold condLe; infer_instance

/-- `ConditionSet.Conditions()`: the live map's values sorted ascending by
Type. -/
def ConditionSet.Conditions (cs : ConditionSet) : List Condition :=
  List.insertionSort condLe (cs.conditions.map Prod.snd)

/-- `ConditionSet.Changed()`. -/
def ConditionSet.Changed (cs : ConditionSet) : Bool :=
  if cs.original.length ≠ cs.conditions.length then true
  else cs.original.any fun prev =>
    match lookupAssoc cs.conditions prev.Type_ with
    | none => true
    | some next => !(isSame prev next)

/-- A sequence of `Set` calls (one reconcile pass mutates the set only through
`Set`). -/
structure SetOp where
  condType : String
  status : String
  reason : String
  message : String
deriving DecidableEq

/-- Apply a sequence of `Set` calls. -/
def applySets (cs : ConditionSet) (ops : List SetOp) : ConditionSet :=
  ops.foldl (fun cs op => cs.Set op.condType op.status op.reason op.message) cs

/-! ## internal/controller/controller.go — patchStatusIfChanged -/

/-- The slice of `IdentitySyncPolicy.Status` that `patchStatusIfChanged`
reads and writes. -/
structure IdentityStatus where
  ObservedSourceSecretHash : String
  Conditions : List Condition
deriving DecidableEq

/-- `meta.SetStatusCondition` (external apimachinery helper) modelled as
upsert-by-Type; its details are irrelevant to the patch-issuance gate. -/
def setStatusCondition (conds : List Condition) (c : Condition) : List Condition :=
  if conds.any (fun p => p.Type_ = c.Type_) then
    conds.map fun p => if p.Type_ = c.Type_ then c else p
  else conds ++ [c]

/-- `Controller.patchStatusIfChanged(ctx, identity, cs, desiredHash)`:
returns whether the status patch call was issued, and the patched status.
The Go receiver issues `c.client.Status().Patch` exactly when it does not
take the early `return false, nil`; a successful patch returns `true`. -/
def patchStatusIfChanged (identity : IdentityStatus) (cs : Option ConditionSet)
    (desiredHash : String) : Bool × IdentityStatus :=
  let condChanged : Bool :=
    match cs with
    | none => false
    | some c => c.Changed
  let hashChanged : Bool :=
    decide (desiredHash ≠ "" ∧ identity.ObservedSourceSecretHash ≠ desiredHash)
  if condChanged = false ∧ hashChanged = false then (false, identity)
  else
    let identity1 :=
      if hashChanged then { identity with ObservedSourceSecretHash := desiredHash }
      else identity
    let identity2 :=
      match cs with
      | none => identity1
      | some c =>
        { identity1 with Conditions := c.Conditions.foldl setStatusCondition identity1.Conditions }
    (true, identity2)

/-! ## pkg/logging (src/unnamed/part_001) — Limiter -/

/-- `logging.Limiter`: `entries` is `map[string]time.Time` (fingerprint →
next-allowed instant). -/
structure Limiter where
  size : Int
  entries : List (String × Int)
deriving DecidableEq

/-- `logging.NewLimiter(size)`: non-positive sizes fall back to the default
capacity 10000. -/
def NewLimiter (size : Int) : Limiter :=
  { size := if size ≤ 0 then 10000 else size, entries := [] }

/-- The arbitrary-eviction loop of `Limiter.prune`: Go deletes map entries in
unspecified iteration order until at or under capacity; modelled as dropping
from the front. -/
def dropToSize (entries : List (String × Int)) (size : Int) : List (String × Int) :=
  entries.drop (entries.length - size.toNat)

/-- `Limiter.prune(now)`: delete every expired entry (`!now.Before(next)` i.e.
`next ≤ now`), then evict arbitrary entries while still over capacity. -/
def pruneEntries (entries : List (String × Int)) (size now : Int) :
    List (String × Int) :=
  dropToSize (entries.filter fun e => decide (now < e.2)) size

/-- `Limiter.Allow(fingerprint, now, interval)`: result and post-state. -/
def Limiter.Allow (l : Limiter) (fp : String) (now interval : Int) : Bool × Limiter :=
  if interval ≤ 0 then (true, l)
  else
    let blocked :=
      match lookupAssoc l.entries fp with
      | some nextAllowed => decide (now < nextAllowed)
      | none => false
    if blocked then (false, l)
    else
      let entries1 := setAssoc l.entries fp (now + interval)
      let entries2 :=
        if (entries1.length : Int) > l.size then pruneEntries entries1 l.size now
        else entries1
      (true, { l with entries := entries2 })

/-- One recorded `Allow` call. -/
structure AllowCall where
  fp : String
  now : Int
  interval : Int
deriving DecidableEq

/-- Apply a sequence of `Allow` calls to a limiter. -/
def applyAllows (l : Limiter) (calls : List AllowCall) : Limiter :=
  calls.foldl (fun l c => (l.Allow c.fp c.now c.interval).2) l

/-! ## internal/controller/logging.go — truncate -/

/-- The ASCII dot appended by `truncate`. -/
def chDot : Char := Char.ofNat 46

/-- `controller.truncate(s, max)`: Go byte-slices the string; modelled on the
character list (the three-dot ASCII suffix is `"..."`). -/
def truncate (s : List Char) (max : Int) : List Char :=
  if max ≤ 0 ∨ (s.length : Int) ≤ max then s
  else if max ≤ 3 then s.take max.toNat
  else s.take (max.toNat - 3) ++ [chDot, chDot, chDot]

/-! ## FanoutObserver operation sequences -/

/-- One observer call within a pass. -/
inductive FanoutOp where
  | success : FanoutOp
  | failure (ns kind reason : String) (err : Option KErr) : FanoutOp
deriving DecidableEq

/-- Apply a sequence of observer calls. -/
def applyFanout (obs : Observation) (ops : List FanoutOp) : Observation :=
  ops.foldl
    (fun obs op =>
      match op with
      | .success => obs.ObserveSuccess
      | .failure ns kind reason err => obs.ObserveFailure ns kind reason err)
    obs

/-! ## Helper lemmas: association lists -/

theorem lookupAssoc_setAssoc_self {α : Type} (m : List (String × α)) (k : String) (v : α) :
    lookupAssoc (setAssoc m k v) k = some v := by
  induction m with
  | nil => simp [setAssoc, lookupAssoc]
  | cons p m ih =>
    by_cases h : p.1 = k
    · simp [setAssoc, h, lookupAssoc]
    · simp [setAssoc, h, lookupAssoc, ih]

theorem setAssoc_length_le {α : Type} (m : List (String × α)) (k : String) (v : α) :
    (setAssoc m k v).length ≤ m.length + 1 := by
  induction m with
  | nil => simp [setAssoc]
  | cons p m ih =>
    by_cases h : p.1 = k
    · simp [setAssoc, h]
    · simp only [setAssoc, h, if_false, List.length_cons]
      omega

theorem setAssoc_ne_nil {α : Type} (m : List (String × α)) (k : String) (v : α) :
    setAssoc m k v ≠ [] := by
  cases m with
  | nil => simp [setAssoc]
  | cons p m =>
    by_cases h : p.1 = k <;> simp [setAssoc, h]

theorem mem_setAssoc {α : Type} (m : List (String × α)) (k : String) (v : α) :
    ∀ p ∈ setAssoc m k v, p ∈ m ∨ p = (k, v) := by
  induction m with
  | nil => simp [setAssoc]
  | cons q m ih =>
    intro p hp
    by_cases h : q.1 = k
    · simp only [setAssoc, h, if_true] at hp
      rcases List.mem_cons.mp hp with h1 | h1
      · exact Or.inr h1
      · exact Or.inl (List.mem_cons_of_mem _ h1)
    · simp only [setAssoc, h, if_false] at hp
      rcases List.mem_cons.mp hp with h1 | h1
      · exact Or.inl (h1 ▸ List.mem_cons_self q m)
      · rcases ih p h1 with h2 | h2
        · exact Or.inl (List.mem_cons_of_mem _ h2)
        · exact Or.inr h2

theorem self_mem_setAssoc {α : Type} (m : List (String × α)) (k : String) (v : α) :
    (k, v) ∈ setAssoc m k v := by
  induction m with
  | nil => simp [setAssoc]
  | cons q m ih =>
    by_cases h : q.1 = k
    · simp [setAssoc, h]
    · simp only [setAssoc, h, if_false]
      exact List.mem_cons_of_mem _ ih

theorem lookupAssoc_incrCount_self (m : List (String × Int)) (k : String) :
    lookupAssoc (incrCount m k) k = some ((lookupAssoc m k).getD 0 + 1) := by
  induction m with
  | nil => simp [incrCount, lookupAssoc]
  | cons p m ih =>
    by_cases h : p.1 = k
    · simp [incrCount, h, lookupAssoc]
    · simp [incrCount, h, lookupAssoc, ih]

/-! ## Helper lemmas: the reason-count ordering -/

theorem keyLe_total (a b : ReasonCount) : keyLe a b ∨ keyLe b a := by
  unfold keyLe
  rcases lt_trichotomy a.Count b.Count with h | h | h
  · exact Or.inr (Or.inl h)
  · rcases lt_trichotomy (errReasonPriority a.Reason) (errReasonPriority b.Reason) with
      hp | hp | hp
    · exact Or.inr (Or.inr ⟨h.symm, Or.inl hp⟩)
    · rcases le_total a.Reason b.Reason with hs | hs
      · exact Or.inl (Or.inr ⟨h, Or.inr ⟨hp, hs⟩⟩)
      · exact Or.inr (Or.inr ⟨h.symm, Or.inr ⟨hp.symm, hs⟩⟩)
    · exact Or.inl (Or.inr ⟨h, Or.inl hp⟩)
  · exact Or.inl (Or.inl h)

theorem keyLe_trans (a b c : ReasonCount) : keyLe a b → keyLe b c → keyLe a c := by
  unfold keyLe
  intro hab hbc
  rcases hab with h1 | ⟨e1, hp1⟩ <;> rcases hbc with h2 | ⟨e2, hp2⟩
  · exact Or.inl (by omega)
  · exact Or.inl (by omega)
  · exact Or.inl (by omega)
  · rcases hp1 with q1 | ⟨f1, s1⟩ <;> rcases hp2 with q2 | ⟨f2, s2⟩
    · exact Or.inr ⟨by omega, Or.inl (by omega)⟩
    · exact Or.inr ⟨by omega, Or.inl (by omega)⟩
    · exact Or.inr ⟨by omega, Or.inl (by omega)⟩
    · exact Or.inr ⟨by omega, Or.inr ⟨by omega, s1.trans s2⟩⟩

instance : IsTotal ReasonCount keyLe := ⟨keyLe_total⟩

instance : IsTrans ReasonCount keyLe := ⟨keyLe_trans⟩

theorem reasonLess_false_of_keyLe (a b : ReasonCount) (h : keyLe a b) :
    reasonLess b a = false := by
  unfold reasonLess
  unfold keyLe at h
  rcases h with h | ⟨e, h | ⟨f, s⟩⟩
  · rw [if_pos (by omega : b.Count ≠ a.Count), decide_eq_false_iff_not]
    omega
  · rw [if_neg (by omega : ¬b.Count ≠ a.Count),
      if_pos (by omega : errReasonPriority b.Reason ≠ errReasonPriority a.Reason),
      decide_eq_false_iff_not]
    omega
  · rw [if_neg (by omega : ¬b.Count ≠ a.Count),
      if_neg (by omega : ¬errReasonPriority b.Reason ≠ errReasonPriority a.Reason),
      decide_eq_false_iff_not]
    exact not_lt.mpr s

theorem keyLe_of_reasonLess_false (a b : ReasonCount) (h : reasonLess b a = false) :
    keyLe a b := by
  unfold reasonLess at h
  unfold keyLe
  by_cases hc : b.Count ≠ a.Count
  · rw [if_pos hc, decide_eq_false_iff_not, not_lt] at h
    exact Or.inl (by omega)
  · by_cases hp : errReasonPriority b.Reason ≠ errReasonPriority a.Reason
    · rw [if_neg hc, if_pos hp, decide_eq_false_iff_not, not_lt] at h
      exact Or.inr ⟨by omega, Or.inl (by omega)⟩
    · rw [if_neg hc, if_neg hp, decide_eq_false_iff_not, not_lt] at h
      exact Or.inr ⟨by omega, Or.inr ⟨by omega, h⟩⟩

/-- Faithfulness of `keyLe` to the source comparator: `a` may sort at or
before `b` exactly when the `sort.Slice` less-function rejects placing `b`
strictly before `a`. -/
theorem keyLe_iff_reasonLess (a b : ReasonCount) :
    keyLe a b ↔ reasonLess b a = false :=
  ⟨reasonLess_false_of_keyLe a b, keyLe_of_reasonLess_false a b⟩

instance : IsTotal Condition condLe :=
  ⟨fun a b => by unfold condLe; exact le_total a.Type_ b.Type_⟩

instance : IsTrans Condition condLe :=
  ⟨fun a b c hab hbc => by unfold condLe at *; exact le_trans hab hbc⟩

/-! ## Helper lemmas: the limiter -/

theorem dropToSize_length (entries : List (String × Int)) (size : Int) :
    (dropToSize entries size).length = min entries.length size.toNat := by
  unfold dropToSize
  rw [List.length_drop]
  omega

theorem pruneEntries_mem (entries : List (String × Int)) (size now : Int) :
    ∀ p ∈ pruneEntries entries size now, now < p.2 := by
  intro p hp
  unfold pruneEntries dropToSize at hp
  have h1 := List.mem_of_mem_drop hp
  have h2 := List.of_mem_filter h1
  simpa using h2

theorem pruneEntries_length_le (entries : List (String × Int)) (size now : Int)
    (h0 : 0 ≤ size) : ((pruneEntries entries size now).length : Int) ≤ size := by
  unfold pruneEntries
  rw [dropToSize_length]
  omega

theorem pruneEntries_no_evict (entries : List (String × Int)) (size now : Int)
    (h0 : 0 ≤ size)
    (h : (((entries.filter fun e => decide (now < e.2)).length : Int)) ≤ size) :
    pruneEntries entries size now = entries.filter fun e => decide (now < e.2) := by
  unfold pruneEntries dropToSize
  have hz : (entries.filter fun e => decide (now < e.2)).length - size.toNat = 0 := by
    omega
  rw [hz, List.drop_zero]

theorem granted_entries_le (entries : List (String × Int)) (size : Int) (fp : String)
    (v now : Int) (h0 : 0 ≤ size) :
    (((if ((setAssoc entries fp v).length : Int) > size then
        pruneEntries (setAssoc entries fp v) size now
      else setAssoc entries fp v).length : Int)) ≤ size := by
  by_cases hbig : ((setAssoc entries fp v).length : Int) > size
  · rw [if_pos hbig]
    exact pruneEntries_length_le _ _ _ h0
  · rw [if_neg hbig]
    omega

/-! ## Helper lemmas: the observation -/

theorem ObserveFailure_MaxSample (obs : Observation) (ns k r : String)
    (e : Option KErr) : (obs.ObserveFailure ns k r e).MaxSample = obs.MaxSample := by
  unfold Observation.ObserveFailure
  dsimp only
  split <;> rfl

theorem ObserveFailure_samples_bound (obs : Observation) (ns k r : String)
    (e : Option KErr) (h : (obs.Samples.length : Int) ≤ obs.MaxSample) :
    ((obs.ObserveFailure ns k r e).Samples.length : Int) ≤ obs.MaxSample := by
  unfold Observation.ObserveFailure
  dsimp only
  split
  · rename_i h1
    simp only [List.length_append, List.length_singleton]
    push_cast
    omega
  · exact h

theorem applyFanout_MaxSample (ops : List FanoutOp) :
    ∀ obs : Observation, (applyFanout obs ops).MaxSample = obs.MaxSample := by
  induction ops with
  | nil => intro obs; rfl
  | cons op l ih =>
    intro obs
    cases op with
    | success => exact (ih _).trans rfl
    | failure ns k r e => exact (ih _).trans (ObserveFailure_MaxSample obs ns k r e)

theorem applyFanout_samples_bound (ops : List FanoutOp) :
    ∀ obs : Observation, (obs.Samples.length : Int) ≤ obs.MaxSample →
      ((applyFanout obs ops).Samples.length : Int) ≤ (applyFanout obs ops).MaxSample := by
  induction ops with
  | nil => intro obs h; exact h
  | cons op l ih =>
    intro obs h
    cases op with
    | success => exact ih _ h
    | failure ns k r e =>
      refine ih _ ?_
      rw [ObserveFailure_MaxSample]
      exact ObserveFailure_samples_bound obs ns k r e h

/-! ## Helper lemmas: condition sets -/

/-- `Set` either is a state no-op or writes a candidate whose `Type_` is the
requested type. -/
theorem Set_cases (cs : ConditionSet) (t s r m : String) :
    cs.Set t s r m = cs ∨
      ∃ next : Condition, next.Type_ = t ∧
        (cs.Set t s r m).conditions = setAssoc cs.conditions t next := by
  unfold ConditionSet.Set
  cases hlk : lookupAssoc cs.conditions t with
  | none =>
    right
    exact ⟨_, rfl, rfl⟩
  | some prev =>
    dsimp only
    split
    all_goals
      split
      · exact Or.inl rfl
      · right
        exact ⟨_, rfl, rfl⟩

theorem Set_preserves_nonempty (cs : ConditionSet) (t s r m : String)
    (h : ∀ p ∈ cs.conditions, p.2.Type_ ≠ "") (ht : t ≠ "") :
    ∀ p ∈ (cs.Set t s r m).conditions, p.2.Type_ ≠ "" := by
  rcases Set_cases cs t s r m with he | ⟨next, hn, he⟩
  · rw [he]; exact h
  · rw [he]
    intro p hp
    rcases mem_setAssoc _ _ _ p hp with h1 | h1
    · exact h p h1
    · rw [h1]
      show next.Type_ ≠ ""
      rw [hn]; exact ht

theorem foldl_setAssoc_mem (conds : List Condition) :
    ∀ (m : List (String × Condition)) (p : String × Condition),
      p ∈ conds.foldl (fun m c => setAssoc m c.Type_ c) m →
      p ∈ m ∨ ∃ c ∈ conds, p = (c.Type_, c) := by
  induction conds with
  | nil => intro m p hp; exact Or.inl hp
  | cons c l ih =>
    intro m p hp
    simp only [List.foldl_cons] at hp
    rcases ih _ p hp with h1 | ⟨d, hd, he⟩
    · rcases mem_setAssoc _ _ _ p h1 with h2 | h2
      · exact Or.inl h2
      · exact Or.inr ⟨c, List.mem_cons_self c l, h2⟩
    · exact Or.inr ⟨d, List.mem_cons_of_mem _ hd, he⟩

theorem applySets_preserves_nonempty (ops : List SetOp) :
    ∀ cs : ConditionSet, (∀ p ∈ cs.conditions, p.2.Type_ ≠ "") →
      (∀ op ∈ ops, op.condType ≠ "") →
      ∀ p ∈ (applySets cs ops).conditions, p.2.Type_ ≠ "" := by
  induction ops with
  | nil => intro cs h _; exact h
  | cons op l ih =>
    intro cs h hops
    refine ih _ (Set_preserves_nonempty cs _ _ _ _ h (hops op (List.mem_cons_self op l)))
      (fun o ho => hops o (List.mem_cons_of_mem _ ho))

theorem mem_Conditions_iff (cs : ConditionSet) (c : Condition) :
    c ∈ cs.Conditions ↔ c ∈ cs.conditions.map Prod.snd :=
  (List.perm_insertionSort condLe _).mem_iff

/-! ## C1 — outcome policy -/

/-- **C1**: For every observation, `Policy.Decide` returns Outcome = Success
when Total = 0 or Success = Total, Failed when Success = 0 and Total > 0,
and Partial otherwise; its Reason equals `observation.PrimaryReason()`; and
its RequeueAfter is 0 when the outcome is Success, otherwise TransientDelay
whenever HasTransient is true (regardless of HasPermanent), else
PermanentDelay. -/
theorem C1_decide_spec (p : Policy) (obs : Observation) :
    ((obs.Total = 0 ∨ obs.Success = obs.Total) → (p.Decide obs).Outcome = OutcomeSuccess) ∧
    (obs.Success = 0 ∧ 0 < obs.Total → (p.Decide obs).Outcome = OutcomeFailed) ∧
    (obs.Total ≠ 0 ∧ obs.Success ≠ obs.Total ∧ obs.Success ≠ 0 →
      (p.Decide obs).Outcome = OutcomePartial) ∧
    (p.Decide obs).Reason = obs.PrimaryReason ∧
    ((p.Decide obs).Outcome = OutcomeSuccess → (p.Decide obs).RequeueAfter = 0) ∧
    ((p.Decide obs).Outcome ≠ OutcomeSuccess →
      (p.Decide obs).RequeueAfter =
        if obs.HasTransient then p.TransientDelay else p.PermanentDelay) := by
  unfold Policy.Decide
  dsimp only
  refine ⟨?_, ?_, ?_, ?_, ?_, ?_⟩ <;>
    split_ifs <;>
      simp_all [OutcomeSuccess, OutcomeFailed, OutcomePartial]

/-- A partial-failure observation with both failure classes present. -/
def obsPartialTransient : Observation :=
  { Reasons := [(ReasonTimeoutE, 2), (ReasonInvalidE, 1)], Samples := [],
    MaxSample := 50, Success := 2, Failed := 3, Total := 5,
    HasTransient := true, HasPermanent := true }

/-- A fully failed observation. -/
def obsAllFailed : Observation :=
  { Reasons := [(ReasonInvalidE, 5)], Samples := [], MaxSample := 50,
    Success := 0, Failed := 5, Total := 5, HasTransient := false,
    HasPermanent := true }

/-- A fully successful observation. -/
def obsAllSuccess : Observation :=
  { Reasons := [], Samples := [], MaxSample := 50, Success := 5, Failed := 0,
    Total := 5, HasTransient := false, HasPermanent := false }

theorem C1_decide_spec_witness :
    (DefaultPolicy.Decide obsPartialTransient).Outcome = OutcomePartial ∧
    (DefaultPolicy.Decide obsPartialTransient).RequeueAfter = DefaultPolicy.TransientDelay ∧
    (DefaultPolicy.Decide obsAllFailed).Outcome = OutcomeFailed ∧
    (DefaultPolicy.Decide obsAllFailed).RequeueAfter = DefaultPolicy.PermanentDelay ∧
    (DefaultPolicy.Decide obsAllSuccess).Outcome = OutcomeSuccess ∧
    (DefaultPolicy.Decide obsAllSuccess).RequeueAfter = 0 := by
  have h1 := C1_decide_spec DefaultPolicy obsPartialTransient
  have h2 := C1_decide_spec DefaultPolicy obsAllFailed
  have h3 := C1_decide_spec DefaultPolicy obsAllSuccess
  refine ⟨h1.2.2.1 (by decide), (h1.2.2.2.2.2 (by decide)).trans (by decide),
    h2.2.1 (by decide), (h2.2.2.2.2.2 (by decide)).trans (by decide),
    h3.1 (by decide), h3.2.2.2.2.1 (h3.1 (by decide))⟩

/-! ## C2 — reason-count ordering and primary reason -/

/-- **C2**: The deterministic ordering sorts reason counts by descending
count, ties broken by the fixed priority table Invalid(60) > Forbidden(50) >
NotFound(40) > Conflict(30) > Timeout(20) > Other(10) > unrecognized(0), and
remaining ties lexicographically by reason name (`keyLe` is exactly that
order, and coincides with the source comparator `reasonLess`);
`PrimaryReason()` returns the sentinel Unknown when no failures were
observed, else the top entry of the sorted order mapped into the
result-domain reason space; and `{Timeout:3, Invalid:3}` sorts Invalid
first. -/
theorem C2_primary_reason_spec :
    (∀ rc : List ReasonCount,
      List.Sorted keyLe (SortInPlace rc) ∧ (SortInPlace rc).Perm rc) ∧
    (∀ a b : ReasonCount, keyLe a b ↔ reasonLess b a = false) ∧
    (∀ obs : Observation, obs.Reasons = [] → obs.PrimaryReason = ReasonUnknown) ∧
    (∀ obs : Observation, obs.Reasons.length ≠ 0 → obs.ErrorReasonCounts ≠ [] →
      obs.PrimaryReason =
        mapErrReasonToResultReason ((SortInPlace obs.ErrorReasonCounts).headD ⟨"", 0⟩).Reason) ∧
    (mapErrReasonToResultReason ReasonNotFoundE = ReasonNotFoundR ∧
      mapErrReasonToResultReason ReasonForbiddenE = ReasonForbiddenR ∧
      mapErrReasonToResultReason ReasonInvalidE = ReasonInvalidSpec ∧
      mapErrReasonToResultReason ReasonConflictE = ReasonConflictR ∧
      mapErrReasonToResultReason ReasonTimeoutE = ReasonTimeoutR ∧
      mapErrReasonToResultReason ReasonOtherE = ReasonAPIServerError) ∧
    (∀ s : String,
      s ∉ [ReasonNotFoundE, ReasonForbiddenE, ReasonInvalidE, ReasonConflictE,
        ReasonTimeoutE, ReasonOtherE] →
      mapErrReasonToResultReason s = ReasonUnknown) ∧
    (errReasonPriority ReasonInvalidE = 60 ∧ errReasonPriority ReasonForbiddenE = 50 ∧
      errReasonPriority ReasonNotFoundE = 40 ∧ errReasonPriority ReasonConflictE = 30 ∧
      errReasonPriority ReasonTimeoutE = 20 ∧ errReasonPriority ReasonOtherE = 10) ∧
    (∀ s : String,
      s ∉ [ReasonNotFoundE, ReasonForbiddenE, ReasonInvalidE, ReasonConflictE,
        ReasonTimeoutE, ReasonOtherE] →
      errReasonPriority s = 0) ∧
    SortInPlace [⟨ReasonTimeoutE, 3⟩, ⟨ReasonInvalidE, 3⟩] =
      [⟨ReasonInvalidE, 3⟩, ⟨ReasonTimeoutE, 3⟩] := by
  refine ⟨?_, keyLe_iff_reasonLess, ?_, ?_, by decide, ?_, by decide, ?_, by decide⟩
  · intro rc
    exact ⟨List.sorted_insertionSort keyLe rc, List.perm_insertionSort keyLe rc⟩
  · intro obs h
    simp [Observation.PrimaryReason, h]
  · intro obs h1 h2
    unfold Observation.PrimaryReason
    rw [if_neg h1, if_neg (by simpa using h2)]
  · intro s hs
    simp only [List.mem_cons, List.not_mem_nil, or_false, not_or] at hs
    obtain ⟨h1, h2, h3, h4, h5, h6⟩ := hs
    simp [mapErrReasonToResultReason, h1, h2, h3, h4, h5, h6]
  · intro s hs
    simp only [List.mem_cons, List.not_mem_nil, or_false, not_or] at hs
    obtain ⟨h1, h2, h3, h4, h5, h6⟩ := hs
    simp [errReasonPriority, h1, h2, h3, h4, h5, h6]

theorem C2_primary_reason_spec_witness :
    (NewObservation 3 8).PrimaryReason = ReasonUnknown ∧
    mapErrReasonToResultReason "SomethingElse" = ReasonUnknown ∧
    errReasonPriority "SomethingElse" = 0 ∧
    obsPartialTransient.PrimaryReason = ReasonTimeoutR := by
  have h := C2_primary_reason_spec
  refine ⟨h.2.2.1 _ rfl, h.2.2.2.2.2.1 "SomethingElse" (by decide),
    h.2.2.2.2.2.2.2.1 "SomethingElse" (by decide),
    (h.2.2.2.1 obsPartialTransient (by decide) (by decide)).trans (by decide)⟩

/-! ## C3 — error classification -/

/-- **C3**: `ClassifyError` is a pure function; a nil error yields the empty
classification; otherwise the first matching rule in the stated priority
order decides the (Kind, Reason) pair, ending in the fail-open default
(Transient, Other); for the identical underlying not-found error the result
is (Transient, NotFound) under `NotFoundAsTransient` and (Config, NotFound)
under any other policy value. -/
theorem C3_classify_spec :
    (∀ nf : Int, ClassifyError none nf = ("", "")) ∧
    (∀ (e : KErr) (nf : Int), e.isDeadlineExceeded = true →
      ClassifyError (some e) nf = (KindTransient, ReasonTimeoutE)) ∧
    (∀ (e : KErr) (nf : Int), e.isDeadlineExceeded = false → e.isCanceled = true →
      ClassifyError (some e) nf = (KindTerminal, ReasonOtherE)) ∧
    (∀ (e : KErr) (nf : Int), e.isDeadlineExceeded = false → e.isCanceled = false →
      (e.isConflict = true ∨ e.isAlreadyExists = true) →
      ClassifyError (some e) nf = (KindConflict, ReasonConflictE)) ∧
    (∀ (e : KErr) (nf : Int), e.isDeadlineExceeded = false → e.isCanceled = false →
      e.isConflict = false → e.isAlreadyExists = false →
      (e.isForbidden = true ∨ e.isUnauthorized = true) →
      ClassifyError (some e) nf = (KindConfig, ReasonForbiddenE)) ∧
    (∀ (e : KErr) (nf : Int), e.isDeadlineExceeded = false → e.isCanceled = false →
      e.isConflict = false → e.isAlreadyExists = false → e.isForbidden = false →
      e.isUnauthorized = false → e.isInvalid = true →
      ClassifyError (some e) nf = (KindConfig, ReasonInvalidE)) ∧
    (∀ e : KErr, e.isDeadlineExceeded = false → e.isCanceled = false →
      e.isConflict = false → e.isAlreadyExists = false → e.isForbidden = false →
      e.isUnauthorized = false → e.isInvalid = false → e.isNotFound = true →
      ClassifyError (some e) NotFoundAsTransient = (KindTransient, ReasonNotFoundE) ∧
      ∀ nf : Int, nf ≠ NotFoundAsTransient →
        ClassifyError (some e) nf = (KindConfig, ReasonNotFoundE)) ∧
    (∀ (e : KErr) (nf : Int), e.isDeadlineExceeded = false → e.isCanceled = false →
      e.isConflict = false → e.isAlreadyExists = false → e.isForbidden = false →
      e.isUnauthorized = false → e.isInvalid = false → e.isNotFound = false →
      (e.isTimeout = true ∨ e.isServerTimeout = true ∨ e.isTooManyRequests = true) →
      ClassifyError (some e) nf = (KindTransient, ReasonTimeoutE)) ∧
    (∀ (e : KErr) (nf : Int), e.isDeadlineExceeded = false → e.isCanceled = false →
      e.isConflict = false → e.isAlreadyExists = false → e.isForbidden = false →
      e.isUnauthorized = false → e.isInvalid = false → e.isNotFound = false →
      e.isTimeout = false → e.isServerTimeout = false → e.isTooManyRequests = false →
      e.isInternalError = true →
      ClassifyError (some e) nf = (KindTransient, ReasonOtherE)) ∧
    (∀ (e : KErr) (nf code : Int), e.isDeadlineExceeded = false → e.isCanceled = false →
      e.isConflict = false → e.isAlreadyExists = false → e.isForbidden = false →
      e.isUnauthorized = false → e.isInvalid = false → e.isNotFound = false →
      e.isTimeout = false → e.isServerTimeout = false → e.isTooManyRequests = false →
      e.isInternalError = false → e.statusCode = some code →
      (code = 0 ∨ (500 ≤ code ∧ code ≤ 599)) →
      ClassifyError (some e) nf = (KindTransient, ReasonOtherE)) ∧
    (∀ (e : KErr) (nf : Int), e.isDeadlineExceeded = false → e.isCanceled = false →
      e.isConflict = false → e.isAlreadyExists = false → e.isForbidden = false →
      e.isUnauthorized = false → e.isInvalid = false → e.isNotFound = false →
      e.isTimeout = false → e.isServerTimeout = false → e.isTooManyRequests = false →
      e.isInternalError = false →
      ClassifyError (some e) nf = (KindTransient, ReasonOtherE)) := by
  refine ⟨fun _ => rfl, ?_, ?_, ?_, ?_, ?_, ?_, ?_, ?_, ?_, ?_⟩
  · intro e nf h1
    simp [ClassifyError, h1]
  · intro e nf h1 h2
    simp [ClassifyError, h1, h2]
  · intro e nf h1 h2 h3
    rcases h3 with h3 | h3 <;> simp [ClassifyError, h1, h2, h3]
  · intro e nf h1 h2 h3 h4 h5
    rcases h5 with h5 | h5 <;> simp [ClassifyError, h1, h2, h3, h4, h5]
  · intro e nf h1 h2 h3 h4 h5 h6 h7
    simp [ClassifyError, h1, h2, h3, h4, h5, h6, h7]
  · intro e h1 h2 h3 h4 h5 h6 h7 h8
    constructor
    · simp [ClassifyError, h1, h2, h3, h4, h5, h6, h7, h8]
    · intro nf hnf
      simp [ClassifyError, h1, h2, h3, h4, h5, h6, h7, h8, hnf]
  · intro e nf h1 h2 h3 h4 h5 h6 h7 h8 h9
    rcases h9 with h9 | h9 | h9 <;>
      simp [ClassifyError, h1, h2, h3, h4, h5, h6, h7, h8, h9]
  · intro e nf h1 h2 h3 h4 h5 h6 h7 h8 h9 h10 h11 h12
    simp [ClassifyError, h1, h2, h3, h4, h5, h6, h7, h8, h9, h10, h11, h12]
  · intro e nf code h1 h2 h3 h4 h5 h6 h7 h8 h9 h10 h11 h12 h13 h14
    rcases h14 with h14 | h14 <;>
      simp [ClassifyError, h1, h2, h3, h4, h5, h6, h7, h8, h9, h10, h11, h12, h13]
  · intro e nf h1 h2 h3 h4 h5 h6 h7 h8 h9 h10 h11 h12
    cases hsc : e.statusCode with
    | none => simp [ClassifyError, h1, h2, h3, h4, h5, h6, h7, h8, h9, h10, h11, h12, hsc]
    | some code =>
      by_cases hc : code = 0 ∨ (500 ≤ code ∧ code ≤ 599) <;>
        simp [ClassifyError, h1, h2, h3, h4, h5, h6, h7, h8, h9, h10, h11, h12, hsc, hc]

/-- The identical underlying not-found error used under both policies. -/
def errNotFound : KErr := { isNotFound := true, message := "secret not found" }

theorem C3_classify_spec_witness :
    ClassifyError (some errNotFound) NotFoundAsTransient = (KindTransient, ReasonNotFoundE) ∧
    ClassifyError (some errNotFound) NotFoundAsConfig = (KindConfig, ReasonNotFoundE) ∧
    ClassifyError none NotFoundAsConfig = ("", "") ∧
    ClassifyError (some { isDeadlineExceeded := true }) NotFoundAsConfig =
      (KindTransient, ReasonTimeoutE) ∧
    ClassifyError (some {}) NotFoundAsConfig = (KindTransient, ReasonOtherE) := by
  have h := C3_classify_spec
  have h7 := h.2.2.2.2.2.2.1 errNotFound rfl rfl rfl rfl rfl rfl rfl rfl
  refine ⟨h7.1, h7.2 NotFoundAsConfig (by decide), h.1 NotFoundAsConfig,
    h.2.1 _ NotFoundAsConfig rfl,
    h.2.2.2.2.2.2.2.2.2.2 {} NotFoundAsConfig rfl rfl rfl rfl rfl rfl rfl rfl rfl rfl rfl rfl⟩

/-! ## C4 — Set transition-time semantics -/

/-- **C4 counterexample**: starting from an empty snapshot, a `Set` followed
by a field-identical `Set` leaves the second call a complete state no-op
(`csAfterTwo = csAfterOne`), yet `Changed()` is `true`, refuting the claim's
"... and Changed() false". -/
def csNoOrig : ConditionSet := NewConditionSet [] 7 100

def csAfterOne : ConditionSet := csNoOrig.Set "Ready" ConditionTrue "Ok" "ok"

def csAfterTwo : ConditionSet := csAfterOne.Set "Ready" ConditionTrue "Ok" "ok"

theorem C4_noop_changed_counterexample :
    lookupAssoc csAfterOne.conditions "Ready" =
      some { Type_ := "Ready", Status := ConditionTrue, Reason := "Ok", Message := "ok",
             ObservedGeneration := 7, LastTransitionTime := 100 } ∧
    csAfterTwo = csAfterOne ∧
    csAfterTwo.Changed = true := by decide

/-- **C4 (amended)**: For every ConditionSet and `Set(type, status, reason,
message)` call on a type with an existing condition: if the existing status
equals the candidate's status the stored transition time is preserved; if the
candidate additionally equals the existing condition on {Status, Reason,
Message, ObservedGeneration} the call is a complete no-op on the whole state
(hence `Changed()` is left exactly as it was, not necessarily false); and if
the status differs the stored condition becomes the candidate with
`LastTransitionTime` equal to the pass's reconcile time. -/
theorem C4_set_transition_spec (cs : ConditionSet) (condType status reason message : String)
    (prev : Condition) (hprev : lookupAssoc cs.conditions condType = some prev) :
    (prev.Status = status →
      ∃ cur : Condition,
        lookupAssoc (cs.Set condType status reason message).conditions condType = some cur ∧
          cur.LastTransitionTime = prev.LastTransitionTime) ∧
    (prev.Status = status ∧ prev.Reason = reason ∧ prev.Message = message ∧
        prev.ObservedGeneration = cs.observedGeneration →
      cs.Set condType status reason message = cs) ∧
    (prev.Status ≠ status →
      lookupAssoc (cs.Set condType status reason message).conditions condType =
        some { Type_ := condType, Status := status, Reason := reason, Message := message,
               ObservedGeneration := cs.observedGeneration,
               LastTransitionTime := cs.reconcileTime }) := by
  unfold ConditionSet.Set
  rw [hprev]
  dsimp only
  refine ⟨?_, ?_, ?_⟩
  · intro hs
    rw [if_pos hs]
    by_cases hSame : isSame prev
        { Type_ := condType, Reason := reason, Status := status, Message := message,
          ObservedGeneration := cs.observedGeneration,
          LastTransitionTime := prev.LastTransitionTime }
    · rw [if_pos hSame]
      exact ⟨prev, hprev, rfl⟩
    · rw [if_neg hSame]
      exact ⟨_, lookupAssoc_setAssoc_self _ _ _, rfl⟩
  · rintro ⟨hs, hr, hm, hg⟩
    rw [if_pos hs]
    rw [if_pos (by simp [isSame, hs, hr, hm, hg])]
  · intro hs
    rw [if_neg hs]
    rw [if_neg (by simp [isSame, hs])]
    exact lookupAssoc_setAssoc_self _ _ _

/-- The stored condition used to exercise `C4_set_transition_spec`. -/
def c0 : Condition :=
  { Type_ := "Ready", Status := ConditionTrue, Reason := "Ok", Message := "old",
    ObservedGeneration := 5, LastTransitionTime := 100 }

/-- A pass at reconcile time 200 over a snapshot holding `c0`. -/
def csW : ConditionSet := NewConditionSet [c0] 5 200

theorem C4_set_transition_spec_witness :
    (∃ cur : Condition,
      lookupAssoc (csW.Set "Ready" ConditionTrue "Ok" "new").conditions "Ready" = some cur ∧
        cur.LastTransitionTime = 100) ∧
    csW.Set "Ready" ConditionTrue "Ok" "old" = csW ∧
    lookupAssoc (csW.Set "Ready" "False" "Err" "bad").conditions "Ready" =
      some { Type_ := "Ready", Status := "False", Reason := "Err", Message := "bad",
             ObservedGeneration := 5, LastTransitionTime := 200 } := by
  have h1 := C4_set_transition_spec csW "Ready" ConditionTrue "Ok" "new" c0 (by decide)
  have h2 := C4_set_transition_spec csW "Ready" ConditionTrue "Ok" "old" c0 (by decide)
  have h3 := C4_set_transition_spec csW "Ready" "False" "Err" "bad" c0 (by decide)
  refine ⟨?_, h2.2.1 ⟨rfl, rfl, rfl, rfl⟩, h3.2.2 (by decide)⟩
  obtain ⟨cur, hc, hl⟩ := h1.1 rfl
  exact ⟨cur, hc, hl.trans rfl⟩

/-! ## C5 — the status-patch gate -/

/-- The identity status used in the C5 counterexample. -/
def statusCex : IdentityStatus := { ObservedSourceSecretHash := "", Conditions := [] }

/-- An unchanged condition set (fresh snapshot, no `Set` calls). -/
def csCex : ConditionSet := NewConditionSet [] 1 0

/-- **C5 counterexample**: a pass whose `ConditionSet.Changed()` is false
still issues the status patch when the observed-source-secret hash differs
from the non-empty desired hash, refuting "patch is issued if and only if
Changed() is true". -/
theorem C5_patch_counterexample :
    csCex.Changed = false ∧
    (patchStatusIfChanged statusCex (some csCex) "newhash").1 = true := by decide

/-- **C5 (amended)**: the status patch is issued exactly when
`ConditionSet.Changed()` is true or the desired observed-content hash is
non-empty and differs from the persisted one — `Changed()` alone is not the
single authority. -/
theorem C5_patch_iff (identity : IdentityStatus) (cs : Option ConditionSet)
    (desiredHash : String) :
    (patchStatusIfChanged identity cs desiredHash).1 = true ↔
      ((∃ c, cs = some c ∧ c.Changed = true) ∨
        (desiredHash ≠ "" ∧ identity.ObservedSourceSecretHash ≠ desiredHash)) := by
  unfold patchStatusIfChanged
  cases cs with
  | none =>
    dsimp only
    by_cases hh : desiredHash ≠ "" ∧ identity.ObservedSourceSecretHash ≠ desiredHash
    · simp [hh]
    · simp [hh]
  | some c =>
    dsimp only
    by_cases hc : c.Changed <;>
      by_cases hh : desiredHash ≠ "" ∧ identity.ObservedSourceSecretHash ≠ desiredHash <;>
        simp [hc, hh]

theorem C5_patch_iff_witness :
    (patchStatusIfChanged statusCex (some csCex) "newhash").1 = true ∧
    (patchStatusIfChanged statusCex (some csCex) "").1 = false := by
  have h1 := C5_patch_iff statusCex (some csCex) "newhash"
  have h2 := C5_patch_iff statusCex (some csCex) ""
  refine ⟨h1.mpr (Or.inr ⟨by decide, by decide⟩), ?_⟩
  have hnot : ¬((patchStatusIfChanged statusCex (some csCex) "").1 = true) := by
    rw [h2]
    rintro (⟨c, hc, hch⟩ | ⟨hne, _⟩)
    · cases hc
      exact absurd hch (by decide)
    · exact hne rfl
  simpa using hnot

/-! ## C6, C7, C10 — the log rate limiter -/

theorem pruneEntries_nonempty (entries : List (String × Int)) (size now : Int)
    (hs : 1 ≤ size) (x : String × Int) (hx : x ∈ entries) (hxv : now < x.2) :
    pruneEntries entries size now ≠ [] := by
  have hmem : x ∈ entries.filter (fun e => decide (now < e.2)) :=
    List.mem_filter.mpr ⟨hx, by simpa⟩
  have hlen : 0 < (entries.filter (fun e => decide (now < e.2))).length :=
    List.length_pos.mpr (List.ne_nil_of_mem hmem)
  intro hnil
  have hdl := dropToSize_length (entries.filter (fun e => decide (now < e.2))) size
  unfold pruneEntries at hnil
  rw [hnil] at hdl
  simp only [List.length_nil] at hdl
  omega

theorem grant_entries_ne_nil (entries : List (String × Int)) (size : Int) (fp : String)
    (now interval : Int) (hi : 0 < interval) (hs : 1 ≤ size) :
    (if ((setAssoc entries fp (now + interval)).length : Int) > size then
        pruneEntries (setAssoc entries fp (now + interval)) size now
      else setAssoc entries fp (now + interval)) ≠ [] := by
  by_cases hbig : ((setAssoc entries fp (now + interval)).length : Int) > size
  · rw [if_pos hbig]
    exact pruneEntries_nonempty _ _ _ hs _ (self_mem_setAssoc _ _ _) (by omega)
  · rw [if_neg hbig]
    exact setAssoc_ne_nil _ _ _

theorem Allow_preserves_capacity (l : Limiter) (fp : String) (now interval : Int)
    (h : (l.entries.length : Int) ≤ l.size) :
    ((l.Allow fp now interval).2.entries.length : Int) ≤ (l.Allow fp now interval).2.size ∧
      (l.Allow fp now interval).2.size = l.size := by
  have h0 : (0 : Int) ≤ l.size := by omega
  unfold Limiter.Allow
  by_cases hi : interval ≤ 0
  · rw [if_pos hi]
    exact ⟨h, rfl⟩
  · rw [if_neg hi]
    dsimp only
    cases hlk : lookupAssoc l.entries fp with
    | some na =>
      by_cases hb : now < na
      · simp only [hlk]
        rw [if_pos (by simpa using hb)]
        exact ⟨h, rfl⟩
      · simp only [hlk]
        rw [if_neg (by simpa using hb)]
        exact ⟨granted_entries_le _ _ _ _ _ h0, rfl⟩
    | none =>
      simp only [hlk]
      exact ⟨granted_entries_le _ _ _ _ _ h0, rfl⟩

theorem Allow_granted_nonempty (l : Limiter) (fp : String) (now interval : Int)
    (hi : 0 < interval) (hs : 1 ≤ l.size)
    (hres : (l.Allow fp now interval).1 = true) :
    (l.Allow fp now interval).2.entries ≠ [] := by
  unfold Limiter.Allow
  rw [if_neg (by omega : ¬interval ≤ 0)]
  dsimp only
  cases hlk : lookupAssoc l.entries fp with
  | some na =>
    by_cases hb : now < na
    · exfalso
      unfold Limiter.Allow at hres
      rw [if_neg (by omega : ¬interval ≤ 0)] at hres
      dsimp only at hres
      rw [hlk] at hres
      simp [hb] at hres
    · simp only [hlk]
      rw [if_neg (by simpa using hb)]
      exact grant_entries_ne_nil _ _ _ _ _ hi hs
  | none =>
    simp only [hlk]
    exact grant_entries_ne_nil _ _ _ _ _ hi hs

theorem applyAllows_capacity (calls : List AllowCall) :
    ∀ l : Limiter, (l.entries.length : Int) ≤ l.size →
      ((applyAllows l calls).entries.length : Int) ≤ (applyAllows l calls).size := by
  induction calls with
  | nil => intro l h; exact h
  | cons c cl ih =>
    intro l h
    exact ih _ (Allow_preserves_capacity l c.fp c.now c.interval h).1

/-- **C6**: `Allow(fp, now, interval)` with `interval ≤ 0` always returns
true and leaves the table untouched (so no entry is stored for the
fingerprint); for `interval > 0` the first call on an unseen fingerprint
returns true, any call while the stored next-allowed instant `t0 + interval`
lies strictly in the future returns false, the call at exactly
`t0 + interval` returns true, and a granted call restarts the window from
the instant it was granted, storing `now + interval`. -/
theorem C6_allow_window_spec :
    (∀ (l : Limiter) (fp : String) (now interval : Int), interval ≤ 0 →
      l.Allow fp now interval = (true, l)) ∧
    (∀ (l : Limiter) (fp : String) (t0 interval : Int), 0 < interval →
      lookupAssoc l.entries fp = none → (l.Allow fp t0 interval).1 = true) ∧
    (∀ (l : Limiter) (fp : String) (t0 t interval : Int), 0 < interval →
      lookupAssoc l.entries fp = some (t0 + interval) → t < t0 + interval →
      (l.Allow fp t interval).1 = false) ∧
    (∀ (l : Limiter) (fp : String) (t0 interval : Int), 0 < interval →
      lookupAssoc l.entries fp = some (t0 + interval) →
      (l.Allow fp (t0 + interval) interval).1 = true) ∧
    (∀ (l : Limiter) (fp : String) (now interval : Int), 0 < interval →
      (l.Allow fp now interval).1 = true → (l.entries.length : Int) + 1 ≤ l.size →
      lookupAssoc (l.Allow fp now interval).2.entries fp = some (now + interval)) := by
  refine ⟨?_, ?_, ?_, ?_, ?_⟩
  · intro l fp now interval h
    unfold Limiter.Allow
    rw [if_pos h]
  · intro l fp t0 interval hi h
    unfold Limiter.Allow
    rw [if_neg (by omega : ¬interval ≤ 0)]
    dsimp only
    simp [h]
  · intro l fp t0 t interval hi h ht
    unfold Limiter.Allow
    rw [if_neg (by omega : ¬interval ≤ 0)]
    dsimp only
    simp [h, ht]
  · intro l fp t0 interval hi h
    unfold Limiter.Allow
    rw [if_neg (by omega : ¬interval ≤ 0)]
    dsimp only
    simp [h]
  · intro l fp now interval hi hres hsize
    unfold Limiter.Allow at hres ⊢
    rw [if_neg (by omega : ¬interval ≤ 0)] at hres ⊢
    dsimp only at hres ⊢
    have hle := setAssoc_length_le l.entries fp (now + interval)
    cases hlk : lookupAssoc l.entries fp with
    | some na =>
      rw [hlk] at hres
      dsimp only at hres ⊢
      by_cases hb : now < na
      · simp [hb] at hres
      · rw [if_neg (by simpa using hb)]
        dsimp only
        rw [if_neg (by omega)]
        exact lookupAssoc_setAssoc_self _ _ _
    | none =>
      dsimp only
      rw [if_neg (by simp)]
      dsimp only
      rw [if_neg (by omega)]
      exact lookupAssoc_setAssoc_self _ _ _

theorem C6_allow_window_spec_witness :
    (NewLimiter 10).Allow "fp" 100 0 = (true, NewLimiter 10) ∧
    ((NewLimiter 10).Allow "fp" 100 10).1 = true ∧
    lookupAssoc ((NewLimiter 10).Allow "fp" 100 10).2.entries "fp" = some (100 + 10) ∧
    (((NewLimiter 10).Allow "fp" 100 10).2.Allow "fp" 109 10).1 = false ∧
    (((NewLimiter 10).Allow "fp" 100 10).2.Allow "fp" (100 + 10) 10).1 = true := by
  have h := C6_allow_window_spec
  have hfirst := h.2.1 (NewLimiter 10) "fp" 100 10 (by omega) (by decide)
  have hpost := h.2.2.2.2 (NewLimiter 10) "fp" 100 10 (by omega) hfirst (by decide)
  exact ⟨h.1 (NewLimiter 10) "fp" 100 0 (by omega), hfirst, hpost,
    h.2.2.1 _ "fp" 100 109 10 (by omega) hpost (by omega),
    h.2.2.2.1 _ "fp" 100 10 (by omega) hpost⟩

/-- **C7**: after any sequence of `Allow` calls from `NewLimiter`, the entry
table holds at most the configured capacity; `prune` removes every expired
entry (next-allowed at or before now), evicts an unexpired entry only when
the table is still over capacity after that, and a granted `Allow` always
leaves at least one entry behind any prune it triggered. -/
theorem C7_capacity_spec :
    (∀ (size0 : Int) (calls : List AllowCall),
      ((applyAllows (NewLimiter size0) calls).entries.length : Int) ≤
        (applyAllows (NewLimiter size0) calls).size) ∧
    (∀ (entries : List (String × Int)) (size now : Int),
      ∀ p ∈ pruneEntries entries size now, now < p.2) ∧
    (∀ (entries : List (String × Int)) (size now : Int), 0 ≤ size →
      ((entries.filter fun e => decide (now < e.2)).length : Int) ≤ size →
      pruneEntries entries size now = entries.filter fun e => decide (now < e.2)) ∧
    (∀ (l : Limiter) (fp : String) (now interval : Int), 0 < interval → 1 ≤ l.size →
      (l.Allow fp now interval).1 = true → (l.Allow fp now interval).2.entries ≠ []) := by
  refine ⟨?_, pruneEntries_mem, pruneEntries_no_evict, Allow_granted_nonempty⟩
  intro size0 calls
  refine applyAllows_capacity calls _ ?_
  unfold NewLimiter
  dsimp only
  split_ifs with hsz
  · simp
  · simp only [List.length_nil, Nat.cast_zero]
    omega

theorem C7_capacity_spec_witness :
    ((applyAllows (NewLimiter 2)
        [⟨"a", 0, 10⟩, ⟨"b", 0, 10⟩, ⟨"c", 50, 10⟩]).entries.length : Int) ≤
      (applyAllows (NewLimiter 2) [⟨"a", 0, 10⟩, ⟨"b", 0, 10⟩, ⟨"c", 50, 10⟩]).size ∧
    pruneEntries [("a", 10), ("b", 60)] 2 50 = [("b", 60)] ∧
    ((NewLimiter 2).Allow "a" 0 10).2.entries ≠ [] := by
  have h := C7_capacity_spec
  refine ⟨h.1 2 _, ?_, h.2.2.2 _ "a" 0 10 (by omega) (by decide) (by decide)⟩
  exact (h.2.2.1 [("a", 10), ("b", 60)] 2 50 (by omega) (by decide)).trans (by decide)

/-- **C10**: whenever `Allow` returns false, the limiter state is completely
unchanged — the blocked fingerprint's stored instant is not refreshed, no
entry is created, no pruning or eviction occurs. -/
theorem C10_allow_blocked_frame (l : Limiter) (fp : String) (now interval : Int)
    (h : (l.Allow fp now interval).1 = false) :
    (l.Allow fp now interval).2 = l := by
  unfold Limiter.Allow at h ⊢
  by_cases hi : interval ≤ 0
  · rw [if_pos hi] at h
    exact absurd h (by simp)
  · rw [if_neg hi] at h ⊢
    dsimp only at h ⊢
    cases hlk : lookupAssoc l.entries fp with
    | none =>
      rw [hlk] at h
      simp at h
    | some na =>
      rw [hlk] at h
      dsimp only at h ⊢
      by_cases hb : now < na
      · rw [if_pos (by simpa using hb)]
      · rw [if_neg (by simpa using hb)] at h
        simp at h

theorem C10_allow_blocked_frame_witness :
    (((NewLimiter 10).Allow "fp" 100 10).2.Allow "fp" 105 10).2 =
      ((NewLimiter 10).Allow "fp" 100 10).2 :=
  C10_allow_blocked_frame _ "fp" 105 10 (by decide)

/-! ## C8 — bounded failure sampling -/

/-- **C8**: `ObserveFailure` appends a sample record (target namespace,
message, Kind, Reason) only while `len(Samples) < MaxSample`; every later
failure still increments `Failed` and the `Reasons` histogram but appends no
sample, so `len(Samples) ≤ MaxSample` after every operation sequence; the
log renderer's `truncate` caps a sample message at the requested length. -/
theorem C8_sampling_spec :
    (∀ (obs : Observation) (ns kind reason : String) (err : Option KErr),
      ((obs.Samples.length : Int) < obs.MaxSample →
        (obs.ObserveFailure ns kind reason err).Samples =
          obs.Samples ++
            [{ Namespace := ns, Message := errMessage err,
               Reason := reason, Kind := kind }]) ∧
      (¬(obs.Samples.length : Int) < obs.MaxSample →
        (obs.ObserveFailure ns kind reason err).Samples = obs.Samples) ∧
      (obs.ObserveFailure ns kind reason err).Failed = obs.Failed + 1 ∧
      countAssoc (obs.ObserveFailure ns kind reason err).Reasons reason =
        countAssoc obs.Reasons reason + 1) ∧
    (∀ (total maxSample : Int) (ops : List FanoutOp), 0 ≤ maxSample →
      ((applyFanout (NewObservation total maxSample) ops).Samples.length : Int) ≤
        maxSample) ∧
    (∀ (s : List Char) (max : Int), 0 < max → ((truncate s max).length : Int) ≤ max) := by
  refine ⟨?_, ?_, ?_⟩
  · intro obs ns kind reason err
    refine ⟨?_, ?_, ?_, ?_⟩
    · intro h
      unfold Observation.ObserveFailure
      dsimp only
      rw [if_pos h]
    · intro h
      unfold Observation.ObserveFailure
      dsimp only
      rw [if_neg h]
    · unfold Observation.ObserveFailure
      dsimp only
      split <;> rfl
    · unfold Observation.ObserveFailure countAssoc
      dsimp only
      split <;> simp [lookupAssoc_incrCount_self]
  · intro total maxSample ops h
    have h0 : ((NewObservation total maxSample).Samples.length : Int) ≤
        (NewObservation total maxSample).MaxSample := by
      simpa [NewObservation] using h
    have hb := applyFanout_samples_bound ops _ h0
    rwa [applyFanout_MaxSample] at hb
  · intro s max h
    unfold truncate
    split_ifs with h1 h2
    · rcases h1 with h1 | h1
      · omega
      · exact h1
    · simp only [List.length_take]
      omega
    · simp only [List.length_append, List.length_take, List.length_cons,
        List.length_nil]
      omega

/-- A one-sample-capacity observation. -/
def obsS : Observation := NewObservation 3 1

theorem C8_sampling_spec_witness :
    (obsS.ObserveFailure "ns1" KindTransient ReasonTimeoutE none).Samples =
      [{ Namespace := "ns1", Message := "", Reason := ReasonTimeoutE,
         Kind := KindTransient }] ∧
    ((obsS.ObserveFailure "ns1" KindTransient ReasonTimeoutE none).ObserveFailure
        "ns2" KindTransient ReasonTimeoutE none).Samples =
      (obsS.ObserveFailure "ns1" KindTransient ReasonTimeoutE none).Samples ∧
    ((obsS.ObserveFailure "ns1" KindTransient ReasonTimeoutE none).ObserveFailure
        "ns2" KindTransient ReasonTimeoutE none).Failed = 2 ∧
    ((applyFanout (NewObservation 3 1)
        [.failure "ns1" KindTransient ReasonTimeoutE none,
         .failure "ns2" KindConfig ReasonInvalidE none,
         .success]).Samples.length : Int) ≤ 1 ∧
    ((truncate (List.replicate 200 chDot) 120).length : Int) ≤ 120 := by
  have h := C8_sampling_spec
  obtain ⟨hA, hB, hC⟩ := h
  refine ⟨((hA obsS "ns1" KindTransient ReasonTimeoutE none).1 (by decide)).trans
    (by decide), ?_, ?_, hB 3 1 _ (by omega), hC _ 120 (by omega)⟩
  · exact (hA _ "ns2" KindTransient ReasonTimeoutE none).2.1 (by decide)
  · exact ((hA _ "ns2" KindTransient ReasonTimeoutE none).2.2.1).trans (by decide)

/-! ## C9 — Conditions() ordering and types -/

/-- The empty-Type condition refuting the unconditional form of the claim. -/
def emptyTypeCond : Condition :=
  { Type_ := "", Status := ConditionTrue, Reason := "r", Message := "m",
    ObservedGeneration := 0, LastTransitionTime := 0 }

/-- **C9 counterexample**: an input condition with an empty Type survives
into `Conditions()` — the code never filters empty Types, so the claim's
"contains no entry with an empty Type" fails for such reachable states. -/
theorem C9_empty_type_counterexample :
    (NewConditionSet [emptyTypeCond] 0 0).Conditions = [emptyTypeCond] ∧
    emptyTypeCond.Type_ = "" := by decide

/-- **C9 (amended)**: `Conditions()` is always sorted ascending by Type; and
for every reachable state whose input conditions and `Set` calls all carry a
non-empty Type, `Conditions()` contains no entry with an empty Type. -/
theorem C9_conditions_spec :
    (∀ cs : ConditionSet, List.Sorted condLe cs.Conditions) ∧
    (∀ (conds : List Condition) (gen t : Int) (ops : List SetOp),
      (∀ c ∈ conds, c.Type_ ≠ "") → (∀ op ∈ ops, op.condType ≠ "") →
      ∀ c ∈ (applySets (NewConditionSet conds gen t) ops).Conditions, c.Type_ ≠ "") := by
  refine ⟨?_, ?_⟩
  · intro cs
    exact List.sorted_insertionSort condLe _
  · intro conds gen t ops hconds hops c hc
    obtain ⟨p, hp, hpc⟩ :=
      List.mem_map.mp ((mem_Conditions_iff _ c).mp hc)
    refine hpc ▸ applySets_preserves_nonempty ops (NewConditionSet conds gen t) ?_ hops p hp
    intro q hq
    rcases foldl_setAssoc_mem conds [] q hq with h1 | ⟨d, hd, he⟩
    · exact absurd h1 (List.not_mem_nil q)
    · rw [he]
      exact hconds d hd

theorem C9_conditions_spec_witness :
    List.Sorted condLe ((NewConditionSet [c0] 5 200).Set "Alpha" ConditionTrue "Ok" "a").Conditions ∧
    ((applySets (NewConditionSet [c0] 5 200)
        [⟨"Zed", ConditionTrue, "Ok", "z"⟩, ⟨"Alpha", ConditionTrue, "Ok", "a"⟩]).Conditions.all
      fun c => decide (c.Type_ ≠ "")) = true := by
  have h := C9_conditions_spec
  refine ⟨h.1 _, ?_⟩
  rw [List.all_eq_true]
  intro c hc
  exact decide_eq_true (h.2 [c0] 5 200 _ (by decide) (by decide) c hc)

end IdentitySync
